import Mathlib

/-!
Verification of the terminal flashcard application (`app.go`, `ai.go`,
`models.go`, `main.go`) against its specification.  The Go code is shallowly
embedded: the session state becomes a structure, key handling and rendering
become functions on it, panics become `Option.none`, and the external
HTTP/JSON layers are represented by their decoded results.
-/

/-- `Flashcard` (models.go): `ID int`, `English`/`en`, `Chinese`/`zh`, `Pinyin`. -/
structure Flashcard where
  ID : Int
  English : String
  Chinese : String
  Pinyin : String
  deriving DecidableEq

/-- The mutable fields of `App` (app.go) that the key handlers and the deck
loader touch: the deck, the current index, the reveal flag and the backing
file name.  The `tview` widget fields carry no program state of their own. -/
structure App where
  Deck : List Flashcard
  CurrentCardIdx : Nat
  Revealed : Bool
  FlashcardsFile : String
  deriving DecidableEq

/-- The card text built by `UpdateCardView` (app.go lines 133-150): position
counter, English always; Chinese and Pinyin only when `Revealed`. -/
def cardContent (card : Flashcard) (idx total : Nat) (revealed : Bool) : String :=
  "\n\n\n" ++
  ("Card " ++ toString (idx + 1) ++ "/" ++ toString total ++ " (ID: " ++ toString card.ID ++ ")\n\n") ++
  "[::b]English:[::-]\n" ++ ("[cyan]" ++ card.English ++ "[white]\n\n") ++
  (if revealed then
    "[::b]Chinese:[::-]\n" ++ ("[yellow]" ++ card.Chinese ++ "[white]\n\n") ++
    "[::b]Pinyin:[::-]\n" ++ ("[green]" ++ card.Pinyin ++ "[white]\n")
  else "") ++
  "\n─────────────────────────\n" ++ "\nControls:\n" ++
  "→: Reveal/Next Card  |  n: New Card  |  q: Quit"

/-- `UpdateCardView` (app.go lines 127-154): an empty deck renders the
placeholder and returns before any indexing; otherwise `a.Deck[a.CurrentCardIdx]`
is read (`none` models the panic of an out-of-range index). -/
def UpdateCardView (a : App) : Option String :=
  if a.Deck.length = 0 then some ("No cards in deck!")
  else (a.Deck[a.CurrentCardIdx]?).map
    (fun card => cardContent card a.CurrentCardIdx a.Deck.length a.Revealed)

/-- Go's `%` on integers: panics (`none`) when the divisor is zero. -/
def goMod (x y : Nat) : Option Nat :=
  if y = 0 then none else some (x % y)

/-- The `tcell.KeyRight` branch of `HandleInput` (app.go lines 166-173): if not
revealed, set `Revealed`; otherwise clear it and advance the index by
`(idx+1) mod len(deck)`; then re-render.  `none` models a panic. -/
def HandleRight (a : App) : Option App :=
  if a.Revealed = false then
    let a' := { a with Revealed := true }
    (UpdateCardView a').map (fun _ => a')
  else
    match goMod (a.CurrentCardIdx + 1) a.Deck.length with
    | none => none
    | some i =>
      let a' := { a with Revealed := false, CurrentCardIdx := i }
      (UpdateCardView a').map (fun _ => a')

/-- Iterated advance key presses, propagating a panic. -/
def HandleRightIter : Nat → App → Option App
  | 0, a => some a
  | k + 1, a => (HandleRight a).bind (HandleRightIter k)

/-- Total form of the advance step (meaningful when the deck is non-empty). -/
def advanceStep (a : App) : App :=
  if a.Revealed then
    { a with Revealed := false, CurrentCardIdx := (a.CurrentCardIdx + 1) % a.Deck.length }
  else { a with Revealed := true }

/-- Concrete two-card session used to witness C1. -/
def sampleApp2 : App :=
  { Deck := [{ ID := 1, English := "one", Chinese := "一", Pinyin := "yī" },
             { ID := 2, English := "two", Chinese := "二", Pinyin := "èr" }],
    CurrentCardIdx := 0, Revealed := false, FlashcardsFile := "flashcards.jsonl" }

/-- Hexadecimal digit character, as used by Go's `\u00XX` JSON escapes. -/
def hexDigit (n : Nat) : Char :=
  match n with
  | 0 => '0' | 1 => '1' | 2 => '2' | 3 => '3' | 4 => '4'
  | 5 => '5' | 6 => '6' | 7 => '7' | 8 => '8' | 9 => '9'
  | 10 => 'a' | 11 => 'b' | 12 => 'c' | 13 => 'd' | 14 => 'e' | _ => 'f'

/-- Escaping of one character inside a JSON string, following Go's
`encoding/json` encoder (quote, backslash, `\n`, `\r`, `\t`, other control
characters as `\u00XX`, and the HTML-escaped `<`, `>`, `&`, U+2028, U+2029). -/
def escapeChar (c : Char) : List Char :=
  if c = '"' then ['\\', '"']
  else if c = '\\' then ['\\', '\\']
  else if c = '\n' then ['\\', 'n']
  else if c = '\r' then ['\\', 'r']
  else if c = '\t' then ['\\', 't']
  else if c.toNat < 32 then ['\\', 'u', '0', '0', hexDigit (c.toNat / 16), hexDigit (c.toNat % 16)]
  else if c = '<' then ['\\', 'u', '0', '0', '3', 'c']
  else if c = '>' then ['\\', 'u', '0', '0', '3', 'e']
  else if c = '&' then ['\\', 'u', '0', '0', '2', '6']
  else if c = Char.ofNat 8232 then ['\\', 'u', '2', '0', '2', '8']
  else if c = Char.ofNat 8233 then ['\\', 'u', '2', '0', '2', '9']
  else [c]

/-- JSON string escaping applied to a whole string. -/
def escapeString (s : String) : String :=
  String.mk (s.data.foldr (fun c acc => escapeChar c ++ acc) [])

/-- `json.Marshal` of a `Flashcard` (models.go field order: id, en, zh, pinyin). -/
def marshalCard (c : Flashcard) : String :=
  "\x7b\"id\":" ++ toString c.ID ++ ",\"en\":\"" ++ escapeString c.English ++
  "\",\"zh\":\"" ++ escapeString c.Chinese ++ "\",\"pinyin\":\"" ++
  escapeString c.Pinyin ++ "\"\x7d"

/-- `Message` (models.go). -/
structure Message where
  Role : String
  Content : String
  deriving DecidableEq

/-- One element of `ChatCompletionsResult.Choices` (models.go). -/
structure Choice where
  message : Message
  deriving DecidableEq

/-- `ChatCompletionsResult` (models.go). -/
structure ChatCompletionsResult where
  Choices : List Choice
  deriving DecidableEq

/-- The anonymous two-field struct `Translate` decodes a choice's content into
(ai.go lines 117-121): `zh`, `pinyin`. -/
structure Translation where
  zh : String
  pinyin : String
  deriving DecidableEq

/-- The error taxonomy of `Translate`'s reply handling (spec section 7):
`ParseError` for either `json.Unmarshal` failure, `EmptyResponse` for
`len(result.Choices) == 0`, `MissingFields` for an empty `zh` or `pinyin`. -/
inductive TranslationError where
  | ParseError
  | EmptyResponse
  | MissingFields
  deriving DecidableEq

/-- `Translate` (ai.go lines 104-130) from the point where the reply body has
been read: `resp` is the body's decoding into `ChatCompletionsResult` (`none`
models a malformed body), `unmarshalTranslation` is the JSON decoding of a
choice's message content into the two-field struct (`none` models a malformed
payload).  Mirrors the source order: body decode, zero-choices check, content
decode, empty-field check. -/
def Translate (resp : Option ChatCompletionsResult)
    (unmarshalTranslation : String → Option Translation) :
    Except TranslationError (String × String) :=
  match resp with
  | none => Except.error TranslationError.ParseError
  | some result =>
    match result.Choices with
    | [] => Except.error TranslationError.EmptyResponse
    | choice :: _ =>
      match unmarshalTranslation choice.message.Content with
      | none => Except.error TranslationError.ParseError
      | some t =>
        if t.zh = "" || t.pinyin = "" then Except.error TranslationError.MissingFields
        else Except.ok (t.zh, t.pinyin)

/-- Which widget tree is the application root (`SetRoot` in app.go). -/
inductive RootView where
  | mainView
  | formView
  deriving DecidableEq

/-- The observable world around `SaveNewCard`: session state, the flashcards
file's content, the current root widget, and whether `Application.Stop` ran. -/
structure World where
  app : App
  file : String
  root : RootView
  stopped : Bool
  deriving DecidableEq

/-- `SaveNewCard` (app.go lines 58-97).  The translation outcome and the three
fallible file steps (`os.OpenFile`, `json.Marshal`, `file.Write`) are inputs.
Mirrors the source order: translate; on error stop and return.  Build the new
card with `ID = len(Deck)+1` and append it to the in-memory deck.  Then open
the file for append, marshal the card and write one newline-terminated line;
on any of those errors stop and return (the deck keeps the new card).  On
success set the root back to the main view (the final `UpdateCardView` only
rewrites widget text). -/
def SaveNewCard (w : World) (englishText : String)
    (translated : Except TranslationError (String × String))
    (openOk marshalOk writeOk : Bool) : World :=
  match translated with
  | Except.error _ => { w with stopped := true }
  | Except.ok (zh, pinyin) =>
    let newCard : Flashcard :=
      { ID := (w.app.Deck.length : Int) + 1, English := englishText,
        Chinese := zh, Pinyin := pinyin }
    let a' := { w.app with Deck := w.app.Deck ++ [newCard] }
    if openOk = false then { w with app := a', stopped := true }
    else if marshalOk = false then { w with app := a', stopped := true }
    else if writeOk = false then { w with app := a', stopped := true }
    else { w with app := a',
                  file := w.file ++ marshalCard newCard ++ "\n",
                  root := RootView.mainView }

/-- Deck-load failure (`decoder.Decode` returning a non-nil error in app.go). -/
inductive LoadError where
  | DecodeError
  deriving DecidableEq

/-- The decode loop of `LoadDeck` (app.go lines 46-54): each entry is one JSONL
value of the file, `none` standing for a malformed one.  Cards are appended to
the deck one by one; the first malformed entry aborts with the decode error. -/
def LoadDeckAux : List Flashcard → List (Option Flashcard) → List Flashcard × Option LoadError
  | deck, [] => (deck, none)
  | deck, none :: _ => (deck, some LoadError.DecodeError)
  | deck, some card :: rest => LoadDeckAux (deck ++ [card]) rest

/-- `LoadDeck` (app.go lines 37-55): records the file name, then decodes
entries in order, mutating `Deck` as it goes; returns the final state together
with the error, if any. -/
def LoadDeck (a : App) (filename : String) (entries : List (Option Flashcard)) :
    App × Option LoadError :=
  let a' := { a with FlashcardsFile := filename }
  let r := LoadDeckAux a'.Deck entries
  ({ a' with Deck := r.1 }, r.2)

/-- Number of newline characters; line count of a file whose every record is
newline-terminated. -/
def countLines (s : String) : Nat := s.data.count '\n'

/-- Concrete one-card world used in witnesses and counterexamples. -/
def sampleWorld : World :=
  { app := { Deck := [{ ID := 1, English := "one", Chinese := "一", Pinyin := "yī" }],
             CurrentCardIdx := 0, Revealed := true, FlashcardsFile := "flashcards.jsonl" },
    file := "x\n", root := RootView.formView, stopped := false }

/-- A concrete content decoder used in witnesses: accepts only the exact
payload of the stub reply. -/
def sampleUnmarshal (s : String) : Option Translation :=
  if s = "good" then some { zh := "你好", pinyin := "Nǐ hǎo" } else none

/-- `sub` occurs contiguously inside `s`. -/
def ContainsStr (s sub : String) : Prop :=
  ∃ p q : String, s = p ++ sub ++ q

/-- Concrete freshly-started session with an empty deck. -/
def sampleEmptyApp : App :=
  { Deck := [], CurrentCardIdx := 0, Revealed := false,
    FlashcardsFile := "flashcards.jsonl" }

theorem UpdateCardView_of_lt (a : App) (h : a.CurrentCardIdx < a.Deck.length) :
    UpdateCardView a =
      some (cardContent (a.Deck.get ⟨a.CurrentCardIdx, h⟩)
        a.CurrentCardIdx a.Deck.length a.Revealed) := by
  have hne : a.Deck.length ≠ 0 := by omega
  rw [UpdateCardView, if_neg hne, List.getElem?_eq_getElem h]
  simp

theorem HandleRight_of_lt (a : App) (h : a.CurrentCardIdx < a.Deck.length) :
    HandleRight a = some (advanceStep a) := by
  have hn : a.Deck.length ≠ 0 := by omega
  cases hr : a.Revealed with
  | false =>
    rw [HandleRight]
    simp only [hr, if_pos rfl]
    rw [UpdateCardView_of_lt { a with Revealed := true } h]
    simp [advanceStep, hr]
  | true =>
    rw [HandleRight]
    simp only [hr, goMod, if_neg hn, Bool.true_eq_false, if_false]
    rw [UpdateCardView_of_lt
      { a with Revealed := false, CurrentCardIdx := (a.CurrentCardIdx + 1) % a.Deck.length }
      (Nat.mod_lt _ (Nat.pos_of_ne_zero hn))]
    simp [advanceStep, hr]

theorem advanceStep_Deck (a : App) : (advanceStep a).Deck = a.Deck := by
  rw [advanceStep]; split <;> rfl

theorem advanceStep_lt (a : App) (h : a.CurrentCardIdx < a.Deck.length) :
    (advanceStep a).CurrentCardIdx < (advanceStep a).Deck.length := by
  rw [advanceStep]; split
  · exact Nat.mod_lt _ (Nat.lt_of_le_of_lt (Nat.zero_le _) h)
  · exact h

theorem HandleRightIter_of_lt (k : Nat) (a : App) (h : a.CurrentCardIdx < a.Deck.length) :
    HandleRightIter k a = some (advanceStep^[k] a) := by
  induction k generalizing a with
  | zero => simp [HandleRightIter]
  | succ k ih =>
    rw [HandleRightIter, HandleRight_of_lt a h]
    show HandleRightIter k (advanceStep a) = _
    rw [ih (advanceStep a) (advanceStep_lt a h), Function.iterate_succ_apply]

theorem advanceStep_two (a : App) :
    advanceStep (advanceStep a) =
      { a with CurrentCardIdx := (a.CurrentCardIdx + 1) % a.Deck.length } := by
  cases hr : a.Revealed <;> simp [advanceStep, hr]

theorem mod_add_mod_left (n i k : Nat) : (i % n + k) % n = (i + k) % n := by
  conv_rhs => rw [Nat.add_mod]
  rw [Nat.add_mod (i % n) k, Nat.mod_mod_of_dvd i (dvd_refl n)]

theorem advanceStep_iterate_two_mul (k : Nat) (a : App)
    (h : a.CurrentCardIdx < a.Deck.length) :
    advanceStep^[2 * k] a =
      { a with CurrentCardIdx := (a.CurrentCardIdx + k) % a.Deck.length } := by
  induction k generalizing a with
  | zero =>
    simp [Nat.mod_eq_of_lt h]
  | succ k ih =>
    have h2 : 2 * (k + 1) = 2 + 2 * k := by ring
    have hstep2 : ∀ b : App, advanceStep^[2] b =
        { b with CurrentCardIdx := (b.CurrentCardIdx + 1) % b.Deck.length } := fun b => by
      rw [Function.iterate_succ_apply, Function.iterate_succ_apply,
        Function.iterate_zero_apply, advanceStep_two]
    rw [h2, Function.iterate_add_apply, ih a h, hstep2, mod_add_mod_left]
    rfl

/-- C1: while Browsing over a non-empty deck with a valid index, advance from
`reveal=false` only sets the flag; from `reveal=true` it clears the flag and
moves to `(idx+1) mod N`; and `2 * N` advances return the session to its
original state. -/
theorem advance_transition (a : App) (h : a.CurrentCardIdx < a.Deck.length) :
    (a.Revealed = false → HandleRight a = some { a with Revealed := true }) ∧
    (a.Revealed = true → HandleRight a =
      some { a with Revealed := false,
                    CurrentCardIdx := (a.CurrentCardIdx + 1) % a.Deck.length }) ∧
    HandleRightIter (2 * a.Deck.length) a = some a := by
  refine ⟨fun hr => ?_, fun hr => ?_, ?_⟩
  · rw [HandleRight_of_lt a h, advanceStep]; simp [hr]
  · rw [HandleRight_of_lt a h, advanceStep]; simp [hr]
  · rw [HandleRightIter_of_lt _ a h, advanceStep_iterate_two_mul _ a h]
    have hmod : (a.CurrentCardIdx + a.Deck.length) % a.Deck.length = a.CurrentCardIdx := by
      rw [Nat.add_mod_right]; exact Nat.mod_eq_of_lt h
    simp [hmod]

theorem advance_transition_witness :
    HandleRight sampleApp2 = some { sampleApp2 with Revealed := true } ∧
    HandleRightIter (2 * sampleApp2.Deck.length) sampleApp2 = some sampleApp2 :=
  ⟨(advance_transition sampleApp2 (by decide)).1 rfl,
   (advance_transition sampleApp2 (by decide)).2.2⟩

/-- C9: with an empty deck while Browsing, the first advance key press only
sets the reveal flag (the deck is untouched and rendering hits the empty-deck
guard), but the second press evaluates `(idx+1) mod 0` and panics with a
division by zero: the empty-deck guard exists only in rendering. -/
theorem advance_empty_deck_panics (a : App) (hd : a.Deck = []) (hr : a.Revealed = false) :
    HandleRight a = some { a with Revealed := true } ∧
    HandleRight { a with Revealed := true } = none := by
  constructor
  · rw [HandleRight]
    simp [hr, UpdateCardView, hd]
  · rw [HandleRight]
    simp [goMod, hd]

theorem advance_empty_deck_panics_witness :
    HandleRight sampleEmptyApp = some { sampleEmptyApp with Revealed := true } ∧
    HandleRight { sampleEmptyApp with Revealed := true } = none :=
  advance_empty_deck_panics sampleEmptyApp rfl rfl

/-- C5: a reply with zero choices makes `Translate` fail with `EmptyResponse`,
and `SaveNewCard` on that failure stops the application without appending a
card to the in-memory deck or to the file (the world is otherwise unchanged). -/
theorem empty_response_no_append (w : World) (e : String) (r : ChatCompletionsResult)
    (u : String → Option Translation) (openOk marshalOk writeOk : Bool)
    (hr : r.Choices = []) :
    Translate (some r) u = Except.error TranslationError.EmptyResponse ∧
    SaveNewCard w e (Translate (some r) u) openOk marshalOk writeOk =
      { w with stopped := true } := by
  obtain ⟨cs⟩ := r
  simp only [ChatCompletionsResult.mk.injEq] at hr
  subst hr
  exact ⟨rfl, rfl⟩

theorem empty_response_no_append_witness :
    Translate (some { Choices := [] }) sampleUnmarshal =
      Except.error TranslationError.EmptyResponse ∧
    SaveNewCard sampleWorld "Hello" (Translate (some { Choices := [] }) sampleUnmarshal)
      true true true = { sampleWorld with stopped := true } :=
  empty_response_no_append sampleWorld "Hello" { Choices := [] } sampleUnmarshal
    true true true rfl

/-- C10: when translation succeeded but opening the file, marshaling, or
writing fails, the new card is already in the in-memory deck while the file is
unchanged: memory and disk diverge on append failure. -/
theorem append_failure_diverges (w : World) (e zh pinyin : String)
    (openOk marshalOk writeOk : Bool)
    (hfail : openOk = false ∨ marshalOk = false ∨ writeOk = false) :
    SaveNewCard w e (Except.ok (zh, pinyin)) openOk marshalOk writeOk =
      { w with
        app := { w.app with Deck := w.app.Deck ++
          [{ ID := (w.app.Deck.length : Int) + 1, English := e,
             Chinese := zh, Pinyin := pinyin }] },
        stopped := true } := by
  cases openOk <;> cases marshalOk <;> cases writeOk <;>
    simp_all [SaveNewCard]

theorem append_failure_diverges_witness :
    SaveNewCard sampleWorld "Hello" (Except.ok ("你好", "Nǐ hǎo")) false true true =
      { sampleWorld with
        app := { sampleWorld.app with Deck := sampleWorld.app.Deck ++
          [{ ID := (sampleWorld.app.Deck.length : Int) + 1, English := "Hello",
             Chinese := "你好", Pinyin := "Nǐ hǎo" }] },
        stopped := true } :=
  append_failure_diverges sampleWorld "Hello" "你好" "Nǐ hǎo" false true true (Or.inl rfl)

/-- C2 as stated is false: the submit path never resets the reveal flag, so a
submit issued from a revealed card returns with `Revealed` still `true`. -/
theorem submit_reveal_counterexample :
    ¬ ((SaveNewCard sampleWorld "Hello" (Except.ok ("你好", "Nǐ hǎo")) true true true).app.Revealed
      = false) := by
  decide

/-- C2 (amended): a successful submit with sourceText "Hello" and a stub
translation ("你好","Nǐ hǎo") appends the card `{id := N+1, en := "Hello",
zh := "你好", pinyin := "Nǐ hǎo"}` both to the in-memory deck and, as one
JSON line, to the record file, and returns control to Browsing (root back to
the main view) with the reveal flag unchanged. -/
theorem submit_success (w : World) :
    SaveNewCard w "Hello" (Except.ok ("你好", "Nǐ hǎo")) true true true =
      { w with
        app := { w.app with Deck := w.app.Deck ++
          [{ ID := (w.app.Deck.length : Int) + 1, English := "Hello",
             Chinese := "你好", Pinyin := "Nǐ hǎo" }] },
        file := w.file ++ marshalCard
          { ID := (w.app.Deck.length : Int) + 1, English := "Hello",
            Chinese := "你好", Pinyin := "Nǐ hǎo" } ++ "\n",
        root := RootView.mainView } := by
  rfl

/-- C3: `Translate` fails with `EmptyResponse` exactly when the well-formed
reply has zero choices; a malformed reply body, or a malformed JSON payload in
the first choice's content, gives `ParseError`; an empty translation or
pronunciation field after parsing gives `MissingFields`; and a successful
result always carries two non-empty fields. -/
theorem Translate_cons (u : String → Option Translation) (c : Choice) (rest : List Choice) :
    Translate (some { Choices := c :: rest }) u =
      match u c.message.Content with
      | none => Except.error TranslationError.ParseError
      | some t =>
        if t.zh = "" || t.pinyin = "" then Except.error TranslationError.MissingFields
        else Except.ok (t.zh, t.pinyin) := rfl

theorem translate_error_taxonomy (u : String → Option Translation)
    (r : ChatCompletionsResult) (c : Choice) (rest : List Choice) (t : Translation) :
    (Translate none u = Except.error TranslationError.ParseError) ∧
    (Translate (some r) u = Except.error TranslationError.EmptyResponse ↔ r.Choices = []) ∧
    (u c.message.Content = none →
      Translate (some { Choices := c :: rest }) u = Except.error TranslationError.ParseError) ∧
    (u c.message.Content = some t → (t.zh = "" ∨ t.pinyin = "") →
      Translate (some { Choices := c :: rest }) u = Except.error TranslationError.MissingFields) ∧
    (u c.message.Content = some t → t.zh ≠ "" → t.pinyin ≠ "" →
      Translate (some { Choices := c :: rest }) u = Except.ok (t.zh, t.pinyin)) ∧
    (∀ (resp : Option ChatCompletionsResult) (zh pinyin : String),
      Translate resp u = Except.ok (zh, pinyin) → zh ≠ "" ∧ pinyin ≠ "") := by
  refine ⟨rfl, ?_, ?_, ?_, ?_, ?_⟩
  · constructor
    · intro h
      obtain ⟨cs⟩ := r
      cases cs with
      | nil => rfl
      | cons c' rest' =>
        exfalso
        rw [Translate_cons] at h
        cases hu : u c'.message.Content <;> rw [hu] at h
        · simp at h
        · next val =>
          have h' : (if val.zh = "" || val.pinyin = "" then
              Except.error TranslationError.MissingFields
            else Except.ok (val.zh, val.pinyin)) =
              (Except.error TranslationError.EmptyResponse :
                Except TranslationError (String × String)) := h
          split at h' <;> simp_all
    · intro h
      obtain ⟨cs⟩ := r
      simp only [ChatCompletionsResult.mk.injEq] at h
      subst h
      rfl
  · intro hu
    simp [Translate_cons, hu]
  · intro hu hz
    rcases hz with hz | hz <;> simp [Translate_cons, hu, hz]
  · intro hu hz hp
    simp [Translate_cons, hu, hz, hp]
  · intro resp zh pinyin h
    match resp with
    | none => exact Except.noConfusion h
    | some r' =>
      obtain ⟨cs⟩ := r'
      match cs with
      | [] => exact Except.noConfusion h
      | c' :: rest' =>
        rw [Translate_cons] at h
        cases hu : u c'.message.Content <;> rw [hu] at h
        · exact Except.noConfusion h
        · next val =>
          have h' : (if val.zh = "" || val.pinyin = "" then
              Except.error TranslationError.MissingFields
            else Except.ok (val.zh, val.pinyin)) = Except.ok (zh, pinyin) := h
          split at h'
          · exact Except.noConfusion h'
          · next hcond =>
            rw [Except.ok.injEq, Prod.mk.injEq] at h'
            obtain ⟨h1, h2⟩ := h'
            subst h1
            subst h2
            simpa using hcond

theorem translate_error_taxonomy_witness :
    Translate (some { Choices := [{ message := { Role := "assistant", Content := "bad" } }] })
      sampleUnmarshal = Except.error TranslationError.ParseError ∧
    Translate (some { Choices := [{ message := { Role := "assistant", Content := "good" } }] })
      sampleUnmarshal = Except.ok ("你好", "Nǐ hǎo") ∧
    Translate (some { Choices := [{ message := { Role := "assistant", Content := "x" } }] })
      (fun _ => some { zh := "", pinyin := "p" }) = Except.error TranslationError.MissingFields :=
  ⟨(translate_error_taxonomy sampleUnmarshal { Choices := [] }
      { message := { Role := "assistant", Content := "bad" } } []
      { zh := "你好", pinyin := "Nǐ hǎo" }).2.2.1 (by decide),
   (translate_error_taxonomy sampleUnmarshal { Choices := [] }
      { message := { Role := "assistant", Content := "good" } } []
      { zh := "你好", pinyin := "Nǐ hǎo" }).2.2.2.2.1 (by decide) (by decide) (by decide),
   (translate_error_taxonomy (fun _ => some { zh := "", pinyin := "p" }) { Choices := [] }
      { message := { Role := "assistant", Content := "x" } } []
      { zh := "", pinyin := "p" }).2.2.2.1 rfl (Or.inl rfl)⟩

theorem LoadDeckAux_spec (cards : List Flashcard) :
    ∀ (deck : List Flashcard) (post : List (Option Flashcard)),
    LoadDeckAux deck (cards.map some ++ none :: post) =
      (deck ++ cards, some LoadError.DecodeError) := by
  induction cards with
  | nil => intro deck post; simp [LoadDeckAux]
  | cons card rest ih =>
    intro deck post
    show LoadDeckAux (deck ++ [card]) (rest.map some ++ none :: post) = _
    rw [ih]
    simp

/-- C4 as stated is false in one respect: on a malformed second line the load
does return the decode error, but the deck field already holds the card
decoded from the first line — it is not left unchanged. -/
theorem load_partial_deck_counterexample :
    (LoadDeck sampleEmptyApp "flashcards.jsonl"
        [some { ID := 1, English := "one", Chinese := "一", Pinyin := "yī" }, none]).2 =
      some LoadError.DecodeError ∧
    ¬ ((LoadDeck sampleEmptyApp "flashcards.jsonl"
        [some { ID := 1, English := "one", Chinese := "一", Pinyin := "yī" }, none]).1.Deck =
      sampleEmptyApp.Deck) := by
  decide

/-- C4 (amended): a file with a malformed line fails the entire load with a
decode error; no malformed line is skipped and nothing after the first
malformed line is processed, but the deck field retains the cards decoded
before it (the caller exits on the error, so no deck is delivered). -/
theorem load_malformed_line (a : App) (f : String) (cards : List Flashcard)
    (post : List (Option Flashcard)) :
    LoadDeck a f (cards.map some ++ none :: post) =
      ({ a with FlashcardsFile := f, Deck := a.Deck ++ cards },
       some LoadError.DecodeError) := by
  rw [LoadDeck]
  simp [LoadDeckAux_spec]

theorem hexDigit_ne_newline (n : Nat) : hexDigit n ≠ '\n' := by
  match n with
  | 0 => decide
  | 1 => decide
  | 2 => decide
  | 3 => decide
  | 4 => decide
  | 5 => decide
  | 6 => decide
  | 7 => decide
  | 8 => decide
  | 9 => decide
  | 10 => decide
  | 11 => decide
  | 12 => decide
  | 13 => decide
  | 14 => decide
  | m + 15 =>
    intro h
    have h2 : ('f' : Char) = '\n' := h
    exact absurd h2 (by decide)

theorem digitChar_ne_newline (n : Nat) : Nat.digitChar n ≠ '\n' := by
  match n with
  | 0 => decide
  | 1 => decide
  | 2 => decide
  | 3 => decide
  | 4 => decide
  | 5 => decide
  | 6 => decide
  | 7 => decide
  | 8 => decide
  | 9 => decide
  | 10 => decide
  | 11 => decide
  | 12 => decide
  | 13 => decide
  | 14 => decide
  | 15 => decide
  | m + 16 =>
    intro h
    have h2 : ('*' : Char) = '\n' := h
    exact absurd h2 (by decide)

theorem toDigitsCore_no_newline (b : Nat) :
    ∀ (fuel n : Nat) (ds : List Char), '\n' ∉ ds → '\n' ∉ Nat.toDigitsCore b fuel n ds := by
  intro fuel
  induction fuel with
  | zero => intro n ds h; exact h
  | succ f ih =>
    intro n ds h
    show '\n' ∉ (if n / b = 0 then Nat.digitChar (n % b) :: ds
      else Nat.toDigitsCore b f (n / b) (Nat.digitChar (n % b) :: ds))
    have hd : '\n' ∉ Nat.digitChar (n % b) :: ds := by
      intro hmem
      rcases List.mem_cons.mp hmem with hmem | hmem
      · exact digitChar_ne_newline _ hmem.symm
      · exact h hmem
    split
    · exact hd
    · exact ih _ _ hd

theorem natRepr_no_newline (n : Nat) : '\n' ∉ (Nat.repr n).data :=
  toDigitsCore_no_newline 10 (n + 1) n [] (by simp)

theorem intToString_no_newline (i : Int) : '\n' ∉ (toString i).data := by
  match i with
  | Int.ofNat m => exact natRepr_no_newline m
  | Int.negSucc m =>
    show '\n' ∉ ("-" ++ toString (m + 1)).data
    rw [String.data_append]
    intro hmem
    rcases List.mem_append.mp hmem with hmem | hmem
    · exact absurd hmem (by decide)
    · exact natRepr_no_newline (m + 1) hmem

theorem escapeChar_no_newline (c : Char) : '\n' ∉ escapeChar c := by
  unfold escapeChar
  by_cases h1 : c = '"'
  · rw [if_pos h1]; decide
  rw [if_neg h1]
  by_cases h2 : c = '\\'
  · rw [if_pos h2]; decide
  rw [if_neg h2]
  by_cases h3 : c = '\n'
  · rw [if_pos h3]; decide
  rw [if_neg h3]
  by_cases h4 : c = '\r'
  · rw [if_pos h4]; decide
  rw [if_neg h4]
  by_cases h5 : c = '\t'
  · rw [if_pos h5]; decide
  rw [if_neg h5]
  by_cases h6 : c.toNat < 32
  · rw [if_pos h6]
    intro hmem
    simp only [List.mem_cons, List.not_mem_nil, or_false] at hmem
    rcases hmem with h | h | h | h | h | h
    · exact absurd h (by decide)
    · exact absurd h (by decide)
    · exact absurd h (by decide)
    · exact absurd h (by decide)
    · exact hexDigit_ne_newline _ h.symm
    · exact hexDigit_ne_newline _ h.symm
  rw [if_neg h6]
  by_cases h7 : c = '<'
  · rw [if_pos h7]; decide
  rw [if_neg h7]
  by_cases h8 : c = '>'
  · rw [if_pos h8]; decide
  rw [if_neg h8]
  by_cases h9 : c = '&'
  · rw [if_pos h9]; decide
  rw [if_neg h9]
  by_cases h10 : c = Char.ofNat 8232
  · rw [if_pos h10]; decide
  rw [if_neg h10]
  by_cases h11 : c = Char.ofNat 8233
  · rw [if_pos h11]; decide
  rw [if_neg h11]
  intro hmem
  simp only [List.mem_cons, List.not_mem_nil, or_false] at hmem
  exact h3 hmem.symm

theorem escapeString_count (s : String) :
    (escapeString s).data.count '\n' = 0 := by
  show (s.data.foldr (fun c acc => escapeChar c ++ acc) []).count '\n' = 0
  induction s.data with
  | nil => rfl
  | cons c cs ih =>
    simp only [List.foldr_cons, List.count_append, ih, Nat.add_zero]
    exact List.count_eq_zero.mpr (escapeChar_no_newline c)

theorem marshalCard_count (c : Flashcard) :
    (marshalCard c).data.count '\n' = 0 := by
  rw [marshalCard]
  simp only [String.data_append, List.count_append]
  rw [escapeString_count, escapeString_count, escapeString_count,
    List.count_eq_zero.mpr (intToString_no_newline c.ID)]
  decide

/-- C8: a successful save appends exactly one newline-terminated JSON line to
the record file: the old content stays untouched as a prefix, the marshaled
line itself contains no newline, and the line count grows by exactly one. -/
theorem append_one_line (w : World) (e zh pinyin : String) (c : Flashcard) :
    (marshalCard c).data.count '\n' = 0 ∧
    (SaveNewCard w e (Except.ok (zh, pinyin)) true true true).file =
      w.file ++ marshalCard { ID := (w.app.Deck.length : Int) + 1, English := e,
                              Chinese := zh, Pinyin := pinyin } ++ "\n" ∧
    countLines ((SaveNewCard w e (Except.ok (zh, pinyin)) true true true).file) =
      countLines w.file + 1 := by
  refine ⟨marshalCard_count c, rfl, ?_⟩
  show countLines (w.file ++ marshalCard { ID := (w.app.Deck.length : Int) + 1, English := e,
                                           Chinese := zh, Pinyin := pinyin } ++ "\n") =
    countLines w.file + 1
  rw [countLines, countLines, String.data_append, String.data_append,
    List.count_append, List.count_append, marshalCard_count]
  have h1 : ("\n").data.count '\n' = 1 := by decide
  rw [h1]

/-- C7: rendering an empty deck produces the placeholder for every current
index, reaching the guard before any indexing into the deck (no panic). -/
theorem render_empty_deck (a : App) (hd : a.Deck = []) :
    ∀ idx : Nat, UpdateCardView { a with CurrentCardIdx := idx } =
      some ("No cards in deck!") := by
  intro idx
  simp [UpdateCardView, hd]

theorem render_empty_deck_witness :
    UpdateCardView { sampleEmptyApp with CurrentCardIdx := 5 } =
      some ("No cards in deck!") :=
  render_empty_deck sampleEmptyApp rfl 5

theorem containsStr_self (s : String) : ContainsStr s s :=
  ⟨"", "", by simp⟩

theorem containsStr_appendl (s t sub : String) (h : ContainsStr s sub) :
    ContainsStr (s ++ t) sub := by
  obtain ⟨p, q, hp⟩ := h
  exact ⟨p, q ++ t, by rw [hp]; simp [String.append_assoc]⟩

theorem containsStr_appendr (s t sub : String) (h : ContainsStr t sub) :
    ContainsStr (s ++ t) sub := by
  obtain ⟨p, q, hp⟩ := h
  exact ⟨s ++ p, q, by rw [hp]; simp [String.append_assoc]⟩

theorem cardContent_contains_english (card : Flashcard) (idx total : Nat) (r : Bool) :
    ContainsStr (cardContent card idx total r) card.English := by
  unfold cardContent
  apply containsStr_appendl
  apply containsStr_appendl
  apply containsStr_appendl
  apply containsStr_appendl
  apply containsStr_appendr
  apply containsStr_appendl
  apply containsStr_appendr
  exact containsStr_self _

theorem cardContent_contains_counter (card : Flashcard) (idx total : Nat) (r : Bool) :
    ContainsStr (cardContent card idx total r)
      ("Card " ++ toString (idx + 1) ++ "/" ++ toString total) := by
  unfold cardContent
  apply containsStr_appendl
  apply containsStr_appendl
  apply containsStr_appendl
  apply containsStr_appendl
  apply containsStr_appendl
  apply containsStr_appendl
  apply containsStr_appendr
  apply containsStr_appendl
  apply containsStr_appendl
  apply containsStr_appendl
  exact containsStr_self _

theorem cardContent_contains_chinese (card : Flashcard) (idx total : Nat) :
    ContainsStr (cardContent card idx total true) card.Chinese := by
  unfold cardContent
  rw [if_pos rfl]
  apply containsStr_appendl
  apply containsStr_appendl
  apply containsStr_appendl
  apply containsStr_appendr
  apply containsStr_appendl
  apply containsStr_appendl
  apply containsStr_appendr
  apply containsStr_appendl
  apply containsStr_appendr
  exact containsStr_self _

theorem cardContent_contains_pinyin (card : Flashcard) (idx total : Nat) :
    ContainsStr (cardContent card idx total true) card.Pinyin := by
  unfold cardContent
  rw [if_pos rfl]
  apply containsStr_appendl
  apply containsStr_appendl
  apply containsStr_appendl
  apply containsStr_appendr
  apply containsStr_appendr
  apply containsStr_appendl
  apply containsStr_appendr
  exact containsStr_self _

/-- C6: with a non-empty deck and a valid index, the rendered card view shows
the English source text and the `Card idx+1/total` position counter; Chinese
and Pinyin appear when `Revealed`, and when not revealed the rendering does
not depend on them at all (they can be replaced by anything without changing
the output). -/
theorem render_contract (a : App) (h : a.CurrentCardIdx < a.Deck.length) :
    ∃ card, a.Deck[a.CurrentCardIdx]? = some card ∧
      UpdateCardView a = some (cardContent card a.CurrentCardIdx a.Deck.length a.Revealed) ∧
      ContainsStr (cardContent card a.CurrentCardIdx a.Deck.length a.Revealed) card.English ∧
      ContainsStr (cardContent card a.CurrentCardIdx a.Deck.length a.Revealed)
        ("Card " ++ toString (a.CurrentCardIdx + 1) ++ "/" ++ toString a.Deck.length) ∧
      (a.Revealed = true →
        ContainsStr (cardContent card a.CurrentCardIdx a.Deck.length true) card.Chinese ∧
        ContainsStr (cardContent card a.CurrentCardIdx a.Deck.length true) card.Pinyin) ∧
      (a.Revealed = false → ∀ zh pinyin,
        cardContent { card with Chinese := zh, Pinyin := pinyin }
          a.CurrentCardIdx a.Deck.length false =
        cardContent card a.CurrentCardIdx a.Deck.length false) := by
  refine ⟨a.Deck.get ⟨a.CurrentCardIdx, h⟩, List.getElem?_eq_getElem h,
    UpdateCardView_of_lt a h,
    cardContent_contains_english _ _ _ _,
    cardContent_contains_counter _ _ _ _,
    fun _ => ⟨cardContent_contains_chinese _ _ _, cardContent_contains_pinyin _ _ _⟩,
    fun _ zh pinyin => rfl⟩

theorem render_contract_witness :
    UpdateCardView sampleApp2 =
      some (cardContent { ID := 1, English := "one", Chinese := "一", Pinyin := "yī" } 0 2 false) ∧
    ContainsStr (cardContent { ID := 1, English := "one", Chinese := "一", Pinyin := "yī" } 0 2 false)
      ("one") := by
  obtain ⟨card, hc, h1, h2, h3, h4, h5⟩ := render_contract sampleApp2 (by decide)
  have hcard : some ({ ID := 1, English := "one", Chinese := "一", Pinyin := "yī" } : Flashcard) =
      some card := hc
  rw [Option.some.injEq] at hcard
  subst hcard
  exact ⟨h1, h2⟩
